import Mathlib

/-!
Verification development for the litellm-codex-oauth-provider repository.

The Python modules under src/litellm_codex_oauth_provider are shallowly
embedded here: JSON-shaped Python values become the inductive type JVal,
Python dictionaries become association lists, functions that can raise
become Except-valued functions, and wall-clock or network effects are
passed in explicitly as parameters.  Each embedded definition carries a
comment naming the Python function it translates.
-/

/-- Model of a JSON-shaped Python value (None, bool, int, str, list, dict).
Floats are modelled by integers; none of the verified code paths depend on
fractional values. -/
inductive JVal where
  | null
  | bool (b : Bool)
  | num (n : Int)
  | str (s : String)
  | arr (xs : List JVal)
  | obj (kvs : List (String × JVal))
  deriving Repr

/-- A Python dict with string keys, as an association list (first match wins;
the embedded code never builds duplicate keys). -/
abbrev Obj := List (String × JVal)

/-- First value bound to a key, if the key is present. -/
def jget (o : Obj) (k : String) : Option JVal :=
  match o with
  | [] => none
  | (k2, v) :: rest => if k2 = k then some v else jget rest k

/-- Python d.get(k): None both when the key is absent and when it maps to None. -/
def pyGet (o : Obj) (k : String) : JVal :=
  (jget o k).getD .null

/-- Python d.get(k, default): the default is used only when the key is absent. -/
def pyGetD (o : Obj) (k : String) (d : JVal) : JVal :=
  (jget o k).getD d

/-- Key-presence test, Python k in d. -/
def hasKey (o : Obj) (k : String) : Bool :=
  (jget o k).isSome

/-- Python truthiness of a value: None, False, 0, empty string, empty list
and empty dict are falsy. -/
def truthy : JVal → Bool
  | .null => false
  | .bool b => b
  | .num n => n != 0
  | .str s => s != ""
  | .arr xs => !xs.isEmpty
  | .obj kvs => !kvs.isEmpty

/-- Python a or b evaluated on values. -/
def pyOrJ (a b : JVal) : JVal :=
  if truthy a then a else b

/-- Python attribute access .get on a value: only mappings support it. -/
def asObj : JVal → Except String Obj
  | .obj kvs => .ok kvs
  | _ => .error "AttributeError: value is not a mapping"

/-- Python int(x) restricted to the shapes the verified paths feed it:
ints and bools.  Conversion of numeric strings is not modelled; the
theorems that go through this function restrict token fields to integers. -/
def pyToInt : JVal → Except String Int
  | .num n => .ok n
  | .bool b => .ok (if b then 1 else 0)
  | _ => .error "TypeError: int conversion unsupported for this value"

/-- Python a + b for the numeric shapes that reach it (ints and bools;
anything else raises TypeError). -/
def pyAdd : JVal → JVal → Except String JVal
  | .num a, .num b => .ok (.num (a + b))
  | .num a, .bool b => .ok (.num (a + (if b then 1 else 0)))
  | .bool a, .num b => .ok (.num ((if a then 1 else 0) + b))
  | .bool a, .bool b => .ok (.num ((if a then 1 else 0) + (if b then 1 else 0)))
  | _, _ => .error "TypeError: unsupported operand types for addition"

/-!
Embedding of src/litellm_codex_oauth_provider/model_map.py.  Python strings
are modelled as lists of characters; str.lower is modelled by Char.toLower
(the repository only ever compares ASCII model names).
-/

/-- Characters removed by Python str.strip() with no arguments. -/
def isPySpace (c : Char) : Bool :=
  c = ' ' || c = '\t' || c = '\n' || c = '\r' || c = '\x0b' || c = '\x0c'

/-- Python str.lower for ASCII model names. -/
def lowerL (s : List Char) : List Char := s.map Char.toLower

/-- Python str.strip(): drop whitespace from both ends. -/
def trimL (s : List Char) : List Char :=
  ((s.dropWhile isPySpace).reverse.dropWhile isPySpace).reverse

/-- Python str.startswith on character lists. -/
def startsL : List Char → List Char → Bool
  | [], _ => true
  | _ :: _, [] => false
  | p :: ps, c :: cs => p = c && startsL ps cs

/-- Python substring containment a in b on character lists. -/
def hasSub (needle : List Char) : List Char → Bool
  | [] => needle.isEmpty
  | c :: t => startsL needle (c :: t) || hasSub needle t

/-- Python str.endswith on character lists. -/
def endsL (sfx s : List Char) : Bool := startsL sfx.reverse s.reverse

/-- The three provider markers checked by model_map, in source order
(longest first): codex-oauth/, codex/, codex-. -/
def providerMarkers : List (List Char) :=
  ["codex-oauth/".data, "codex/".data, "codex-".data]

/-- Translation of model_map.py _strip_provider_prefix: remove the first
matching marker from the front (an exact, case-sensitive startswith test)
and strip whitespace from the result. -/
def stripPfx (model : List Char) : List Char :=
  match providerMarkers.find? (fun p => startsL p model) with
  | some p => trimL (model.drop p.length)
  | none => trimL model

/-- model_map.py BASE_MODELS. -/
def baseModels : List (List Char) :=
  ["gpt-5.1-codex".data, "gpt-5.1-codex-max".data, "gpt-5.1-codex-mini".data,
   "gpt-5.1".data]

/-- model_map.py MODEL_EFFORT_SUFFIXES. -/
def effortSuffixes : List (List Char) :=
  ["none".data, "minimal".data, "low".data, "medium".data, "high".data,
   "xhigh".data]

/-- model_map.py alias_bases inside _build_model_map. -/
def aliasBases : List (List Char × List Char) :=
  [("gpt-5-codex".data, "gpt-5.1-codex".data),
   ("gpt-5-codex-max".data, "gpt-5.1-codex-max".data),
   ("gpt-5-codex-mini".data, "gpt-5.1-codex-mini".data),
   ("gpt-5".data, "gpt-5.1".data)]

/-- Translation of model_map.py _build_model_map: every base and alias, with
and without each effort suffix, mapped to its canonical base; keys lowered.
The Python dict has no duplicate keys, so an association list is faithful. -/
def buildModelMap : List (List Char × List Char) :=
  (((baseModels.map (fun b => (b, b) :: effortSuffixes.map (fun s => (b ++ '-' :: s, b)))).flatten
    ++ (aliasBases.map
        (fun p => (p.1, p.2) :: effortSuffixes.map (fun s => (p.1 ++ '-' :: s, p.2)))).flatten)
  ).map (fun p => (lowerL p.1, p.2))

/-- Association-list lookup on character-list keys. -/
def findVal : List (List Char × List Char) → List Char → Option (List Char)
  | [], _ => none
  | (k, v) :: rest, key => if k = key then some v else findVal rest key

/-- Translation of model_map.py normalize_model. -/
def normalizeModel (model : List Char) : List Char :=
  let cleaned := stripPfx model
  let key := lowerL cleaned
  match findVal buildModelMap key with
  | some canonical => canonical
  | none =>
    if hasSub "codex-max".data key then "gpt-5.1-codex-max".data
    else if hasSub "codex-mini".data key then "gpt-5.1-codex-mini".data
    else if hasSub "codex".data key then "gpt-5.1-codex".data
    else if hasSub "gpt-5.1".data key then "gpt-5.1".data
    else cleaned

/-- Translation of model_map.py get_model_family. -/
def getModelFamily (normalizedModel : List Char) : List Char :=
  let key := lowerL normalizedModel
  if hasSub "codex-max".data key then "codex-max".data
  else if hasSub "codex-mini".data key then "codex-mini".data
  else if hasSub "codex".data key then "codex".data
  else if hasSub "gpt-5.1".data key then "gpt-5.1".data
  else "other".data

/-- Translation of model_map.py extract_reasoning_effort_from_model: strip
the provider marker, lower, and return the first effort token appearing as
a dash-separated trailing suffix. -/
def extractEffortFromModel (model : List Char) : Option (List Char) :=
  let key := lowerL (stripPfx model)
  (effortSuffixes.find? (fun sfx => endsL ('-' :: sfx) key))

/-!
Embedding of src/litellm_codex_oauth_provider/reasoning.py.
-/

/-- Shapes a caller may pass as reasoning_effort: None, a string, a dict
(observed through its effort key: some s when that key holds the string s,
none when the key is absent or not a string), or any other object. -/
inductive EffortArg where
  | noneV
  | strV (s : List Char)
  | dictV (effortStr : Option (List Char))
  | otherV
  deriving Repr

/-- Translation of reasoning.py _coerce_effort. -/
def coerceEffort : EffortArg → Option (List Char)
  | .strV s => some (lowerL s)
  | .dictV (some s) => some (lowerL s)
  | _ => none

/-- reasoning.py VALID_EFFORTS (a set in Python; order is irrelevant). -/
def validEfforts : List (List Char) :=
  ["none".data, "minimal".data, "low".data, "medium".data, "high".data,
   "xhigh".data]

/-- Python a or b for an optional string against a fallback: the fallback is
used when the value is None or empty. -/
def orStr (a : Option (List Char)) (b : List Char) : List Char :=
  match a with
  | some s => if s = [] then b else s
  | none => b

/-- Translation of reasoning.py _clamp_effort, keeping the Python if/elif
chain shape. -/
def clampEffort (family effort : List Char) : List Char :=
  if family = "codex-mini".data then
    if effort = "none".data ∨ effort = "minimal".data ∨ effort = "low".data then
      "medium".data
    else if effort = "xhigh".data then "high".data
    else effort
  else if family = "codex".data then
    if effort = "minimal".data then "low".data
    else if effort = "xhigh".data then "high".data
    else effort
  else if family ≠ "codex-max".data ∧ effort = "xhigh".data then "high".data
  else effort

/-- The reasoning/text configuration built by apply_reasoning_config. -/
structure ReasoningConfig where
  effort : List Char
  summary : List Char
  verbosity : List Char
  deriving Repr

/-- Translation of reasoning.py apply_reasoning_config. -/
def applyReasoningConfig (originalModel normalizedModel : List Char)
    (reasoningEffort : EffortArg) (verbosity : Option (List Char)) :
    ReasoningConfig :=
  let inferredEffort := extractEffortFromModel originalModel
  let providedEffort := coerceEffort reasoningEffort
  let effort := lowerL (orStr providedEffort (orStr inferredEffort "medium".data))
  let effort := if validEfforts.contains effort then effort else "medium".data
  let family := getModelFamily normalizedModel
  let clampedEffort := clampEffort family effort
  let resolvedVerbosity := lowerL (orStr verbosity "medium".data)
  { effort := clampedEffort, summary := "auto".data, verbosity := resolvedVerbosity }

/-- Modelled from the claim wording of C4 (spec section 4.2): the clamp
table, written as a table keyed on the family. -/
def claimClampTable (family effort : List Char) : List Char :=
  if family = "codex-mini".data then
    if effort = "none".data ∨ effort = "minimal".data ∨ effort = "low".data then "medium".data
    else if effort = "xhigh".data then "high".data else effort
  else if family = "codex".data then
    if effort = "minimal".data then "low".data
    else if effort = "xhigh".data then "high".data else effort
  else if family = "codex-max".data then effort
  else if effort = "xhigh".data then "high".data else effort

/-- Modelled from the claim wording of C4: resolution order caller value,
then model suffix, then medium, with any token outside the six-token set
replaced by medium, followed by the family clamp.  Here the caller value is
used whenever it is given, even when it is the empty string. -/
def claimResolvedEffort (callerValue : Option (List Char))
    (originalModel normalizedModel : List Char) : List Char :=
  let base :=
    match callerValue with
    | some s => lowerL s
    | none =>
      match extractEffortFromModel originalModel with
      | some sfx => sfx
      | none => "medium".data
  let checked := if validEfforts.contains base then base else "medium".data
  claimClampTable (getModelFamily normalizedModel) checked

/-- Amendment of C4: identical, except that an empty-string caller value
falls through to the model suffix exactly as an absent one does. -/
def amendedResolvedEffort (reasoningEffort : EffortArg)
    (originalModel normalizedModel : List Char) : List Char :=
  let base :=
    match coerceEffort reasoningEffort with
    | some s =>
      if s = [] then lowerL (orStr (extractEffortFromModel originalModel) "medium".data)
      else lowerL s
    | none => lowerL (orStr (extractEffortFromModel originalModel) "medium".data)
  let checked := if validEfforts.contains base then base else "medium".data
  claimClampTable (getModelFamily normalizedModel) checked

/-!
Embedding of src/litellm_codex_oauth_provider/sse_utils.py.  The event dict
SSEEvent is modelled as a structure; optional fields model keys that are
only conditionally inserted.  Attaching delta metadata can raise in Python
(a truthy non-mapping item field), so that step is Except-valued.
-/

/-- sse_utils.py _TEXT_EVENT_TYPES. -/
def textEventTypes : List String :=
  ["text", "text.delta", "text_delta", "response.output_text.delta",
   "response.output_text.delta.partial"]

/-- sse_utils.py _REASONING_EVENT_TYPES. -/
def reasoningEventTypes : List String :=
  ["response.reasoning_summary_text.delta", "response.reasoning_text.delta"]

/-- sse_utils.py _FUNCTION_ARGUMENTS_TYPES. -/
def functionArgumentsTypes : List String :=
  ["function_call.arguments.delta", "function_call_arguments", "function_call",
   "response.function_call_arguments.delta"]

/-- sse_utils.py _COMPLETION_EVENT_TYPES. -/
def completionEventTypes : List String :=
  ["response.done", "response.completed", "completed", "response"]

/-- Normalized SSE event as built by _normalize_event.  delta and itemId
model keys inserted only on some paths; usageFinish is some exactly when
completion metadata was attached. -/
structure SSEEventM where
  type : String
  rawType : Option String
  data : JVal
  id : Option String
  delta : Option String := none
  itemId : Option JVal := none
  usageFinish : Option (Option Obj × JVal) := none
  deriving Repr

/-- First string value among the given keys of a mapping. -/
def firstStrOf (o : Obj) : List String → Option String
  | [] => none
  | k :: ks =>
    match jget o k with
    | some (.str s) => some s
    | _ => firstStrOf o ks

/-- Translation of sse_utils.py _extract_delta. -/
def extractDelta : JVal → Option String
  | .str s => some s
  | .obj o =>
    (match firstStrOf o ["delta", "content", "text", "arguments"] with
     | some s => some s
     | none =>
       match jget o "part" with
       | some (.obj p) =>
         match jget p "text" with
         | some (.str s) => some s
         | _ => none
       | _ => none)
  | _ => none

/-- Translation of sse_utils.py _extract_usage_and_finish. -/
def extractUsageAndFinish : JVal → Option Obj × JVal
  | .obj o =>
    let usage := pyGet o "usage"
    let finish := pyGet o "finish_reason"
    let pair :=
      match jget o "response" with
      | some (.obj r) =>
        (pyOrJ usage (pyGet r "usage"), pyOrJ finish (pyGet r "finish_reason"))
      | _ => (usage, finish)
    (match pair.1 with
     | .obj u => some u
     | _ => none, pair.2)
  | _ => (none, .null)

/-- The type field of a data mapping, when it is a string. -/
def dataTypeOf : JVal → Option String
  | .obj o =>
    match jget o "type" with
    | some (.str t) => some t
    | _ => none
  | _ => none

/-- Translation of sse_utils.py _resolve_raw_type (an empty event-type line
is falsy and falls through to the data payload). -/
def resolveRawType (eventType : Option String) (data : JVal) : Option String :=
  match eventType with
  | some t => if t ≠ "" then some t else dataTypeOf data
  | none => dataTypeOf data

/-- Translation of sse_utils.py _resolve_normalized_type.  The final Python
line is raw_type or unknown: a non-empty unrecognized raw type is returned
verbatim. -/
def resolveNormalizedType (rawType : Option String) : String :=
  match rawType with
  | some t =>
    if textEventTypes.contains t then "text_delta"
    else if reasoningEventTypes.contains t then "reasoning_delta"
    else if functionArgumentsTypes.contains t then "function_arguments_delta"
    else if completionEventTypes.contains t then "completion"
    else if t = "" then "unknown"
    else t
  | none => "unknown"

/-- Translation of sse_utils.py _attach_delta_metadata.  Python evaluates
data.get(item, default-dict).get(id), which raises AttributeError when the
item field holds a truthy non-mapping; hence the Except. -/
def attachDeltaMeta (ev : SSEEventM) (data : JVal) (ntype : String) :
    Except String SSEEventM :=
  if ¬(ntype = "text_delta" ∨ ntype = "reasoning_delta" ∨
       ntype = "function_arguments_delta") then
    .ok ev
  else
    let ev :=
      match extractDelta data with
      | some d => { ev with delta := some d }
      | none => ev
    match data with
    | .obj o =>
      let first := pyGet o "item_id"
      if truthy first then .ok { ev with itemId := some first }
      else do
        let itemObj ← asObj (pyGetD o "item" (.obj []))
        let second := pyGet itemObj "id"
        if truthy second then .ok { ev with itemId := some second } else .ok ev
    | _ => .ok ev

/-- Translation of sse_utils.py _attach_completion_metadata. -/
def attachCompletionMeta (ev : SSEEventM) (data : JVal) (ntype : String) :
    SSEEventM :=
  if ntype ≠ "completion" then ev
  else
    let uf := extractUsageAndFinish data
    { ev with usageFinish := some uf }

/-- Whether the data payload is a whitespace-padded DONE sentinel string. -/
def isDoneData : JVal → Bool
  | .str s => s.trim = "[DONE]"
  | _ => false

/-- Whether Python treats the data payload as blank (None, or a string of
only whitespace). -/
def isBlankData : JVal → Bool
  | .null => true
  | .str s => s.trim = ""
  | _ => false

/-- Translation of sse_utils.py _normalize_event. -/
def normalizeEvent (eventType : Option String) (data : JVal)
    (eventId : Option String) : Except String (Option SSEEventM) :=
  if isBlankData data then .ok none
  else
    let raw := resolveRawType eventType data
    if isDoneData data then
      .ok (some { type := "done", rawType := raw, data := .null, id := eventId })
    else
      let ntype := resolveNormalizedType raw
      let ev : SSEEventM := { type := ntype, rawType := raw, data := data, id := eventId }
      do
        let ev2 ← attachDeltaMeta ev data ntype
        .ok (some (attachCompletionMeta ev2 data ntype))

/-!
Embedding of src/litellm_codex_oauth_provider/adapter.py.
-/

/-- Escape backslash and quote inside a serialized JSON string.  Control
character escaping is not modelled; no theorem inspects serializer output. -/
def jsonEscape (s : String) : String :=
  String.mk (s.data.foldr
    (fun c acc => (if c = '\\' || c = '"' then ['\\', c] else [c]) ++ acc) [])

mutual

/-- Model of json.dumps with the default separators, used where the adapter
stringifies dict- or list-valued tool arguments. -/
def jsonDumps : JVal → String
  | .null => "null"
  | .bool b => if b then "true" else "false"
  | .num n => toString n
  | .str s => "\"" ++ jsonEscape s ++ "\""
  | .arr xs => "[" ++ jsonDumpsArr xs ++ "]"
  | .obj kvs => "\x7b" ++ jsonDumpsObj kvs ++ "\x7d"

/-- Serialize the elements of a JSON array. -/
def jsonDumpsArr : List JVal → String
  | [] => ""
  | [v] => jsonDumps v
  | v :: rest => jsonDumps v ++ ", " ++ jsonDumpsArr rest

/-- Serialize the entries of a JSON object. -/
def jsonDumpsObj : List (String × JVal) → String
  | [] => ""
  | [(k, v)] => "\"" ++ jsonEscape k ++ "\": " ++ jsonDumps v
  | (k, v) :: rest =>
    "\"" ++ jsonEscape k ++ "\": " ++ jsonDumps v ++ ", " ++ jsonDumpsObj rest

end

/-- Whether a value is exactly the given string. -/
def isStrVal (v : JVal) (s : String) : Bool :=
  match v with
  | .str t => t = s
  | _ => false

/-- Whether a value is Python None or the empty string, the two content
shapes the adapter treats as empty. -/
def isNoneOrEmptyStr (v : JVal) : Bool :=
  match v with
  | .null => true
  | .str s => s = ""
  | _ => false

/-- Whether a value is Python None. -/
def isNullVal (v : JVal) : Bool :=
  match v with
  | .null => true
  | _ => false

/-- Model of Python str() for the values the adapter stringifies; container
rendering reuses the JSON serializer (no theorem inspects the output). -/
def pyStr : JVal → String
  | .null => "None"
  | .bool b => if b then "True" else "False"
  | .num n => toString n
  | .str s => s
  | v => jsonDumps v

/-- Python isinstance(x, (dict, list)). -/
def isContainer : JVal → Bool
  | .obj _ => true
  | .arr _ => true
  | _ => false

/-- A looked-up value is structurally smaller than the mapping holding it
(used for termination of the recursive text coercion). -/
def jgetSizeLt : ∀ (o : Obj) (k : String) (v : JVal),
    jget o k = some v → sizeOf v < sizeOf (JVal.obj o)
  | [], _, _, h => by simp [jget] at h
  | (k2, v2) :: rest, k, v, h => by
    by_cases hk : k2 = k
    · simp [jget, hk] at h
      subst h
      simp
      omega
    · have ih := jgetSizeLt rest k v (by simpa [jget, hk] using h)
      simp at ih ⊢
      omega

/-- Translation of adapter.py _coerce_output_fragment: pull text out of a
content fragment, recursing into nested content lists. -/
def coerceOutputFragment (frag : JVal) : List String :=
  match frag with
  | .str s => [s]
  | .obj o =>
    let textVal := pyGet o "text"
    let texts1 : List String :=
      match textVal with
      | .str s => [s]
      | _ => []
    let texts2 : List String :=
      match hc : pyGet o "content" with
      | .str s => [s]
      | .arr xs => (xs.attach.map (fun x => coerceOutputFragment x.1)).flatten
      | .null => []
      | v => if ¬ truthy textVal then [pyStr v] else []
    texts1 ++ texts2
  | other => [pyStr other]
termination_by sizeOf frag
decreasing_by
  have hsome : jget o "content" = some (.arr xs) := by
    unfold pyGet at hc
    cases hj : jget o "content" with
    | none => rw [hj] at hc; simp at hc
    | some w => rw [hj] at hc; simp at hc; rw [hc]
  have h1 := jgetSizeLt o "content" (.arr xs) hsome
  have h2 : sizeOf x.1 < sizeOf (JVal.arr xs) := by
    have := List.sizeOf_lt_of_mem x.2
    simp
    omega
  omega

/-- Translation of adapter.py _extract_text_from_output: coerce every
fragment and join the non-empty parts with newlines, stripping the ends. -/
def extractTextFromOutput (output : JVal) : String :=
  let fragments :=
    match output with
    | .arr xs => xs
    | v => [v]
  let parts := (fragments.map coerceOutputFragment).flatten
  (String.intercalate "\n" (parts.filter (fun p => p ≠ ""))).trim

/-- Translation of the message-item branch of _coerce_choices_from_output. -/
def messageChoiceOfItem (it : Obj) : JVal :=
  let contentText := extractTextFromOutput (pyGetD it "content" (.arr []))
  let finish : JVal :=
    if isStrVal (pyGet it "status") "completed" then .str "stop" else .null
  .obj [("index", .num 0), ("finish_reason", finish),
        ("message", .obj [("role", pyGetD it "role" (.str "assistant")),
                          ("content", .str contentText)])]

/-- Translation of the function-call branch of _coerce_choices_from_output. -/
def functionCallChoiceOfItem (it : Obj) : JVal :=
  let args := pyGetD it "arguments" (.str "")
  let args := if isContainer args then .str (jsonDumps args) else args
  let toolCall : JVal :=
    .obj [("id", pyGetD it "call_id" (.str "tool_call_0")),
          ("type", pyGetD it "type" (.str "function")),
          ("function", .obj [("name", pyGet it "name"), ("arguments", args)])]
  .obj [("index", .num 0), ("finish_reason", .str "tool_calls"),
        ("message", .obj [("role", pyGetD it "role" (.str "assistant")),
                          ("content", .null),
                          ("tool_calls", .arr [toolCall])])]

/-- Forward scan of output items: the first message or function_call item
wins, mirroring the loop in _coerce_choices_from_output. -/
def scanOutputItems (items : List JVal) : Option JVal :=
  match items with
  | [] => none
  | item :: rest =>
    match item with
    | .obj it =>
      if isStrVal (pyGet it "type") "message" then some (messageChoiceOfItem it)
      else if isStrVal (pyGet it "type") "function_call" then
        some (functionCallChoiceOfItem it)
      else scanOutputItems rest
    | _ => scanOutputItems rest

/-- Translation of adapter.py _coerce_choices_from_output. -/
def coerceChoicesFromOutput (output : JVal) : List JVal :=
  let items :=
    match output with
    | .arr xs => xs
    | _ => []
  match scanOutputItems items with
  | some choice => [choice]
  | none =>
    [.obj [("index", .num 0), ("finish_reason", .null),
           ("message", .obj [("role", .str "assistant"),
                             ("content", .str (extractTextFromOutput (.arr items)))])]]

/-- Translation of the per-entry normalization inside _extract_tool_calls. -/
def normalizeToolCallEntry (index : Nat) (tc : Obj) : JVal :=
  let fpObj : Obj :=
    match jget tc "function" with
    | some (.obj o) => o
    | _ => []
  let name := pyOrJ (pyGet fpObj "name") (pyGet tc "name")
  let args := pyGetD fpObj "arguments" (pyGetD tc "arguments" (.str ""))
  let args := if isContainer args then .str (jsonDumps args) else args
  .obj [("id", pyOrJ (pyGet tc "id")
                (pyOrJ (pyGet tc "call_id") (.str ("tool_call_" ++ toString index)))),
        ("type", pyGetD tc "type" (.str "function")),
        ("function", .obj [("name", name), ("arguments", args)])]

/-- Translation of adapter.py _extract_tool_calls: normalize the tool_calls
list of a message payload; non-mapping entries are skipped but still
advance the enumeration index. -/
def extractToolCalls (msg : Obj) : List JVal :=
  match pyGet msg "tool_calls" with
  | .arr xs =>
    (xs.enum.filterMap (fun p =>
      match p.2 with
      | .obj tc => some (normalizeToolCallEntry p.1 tc)
      | _ => none))
  | _ => []

/-- Translation of the output-item fallback entry built in _collect_tool_calls. -/
def outputItemToolCall (it : Obj) : JVal :=
  let args := pyGetD it "arguments" (.str "")
  let args := if isContainer args then .str (jsonDumps args) else args
  .obj [("id", pyOrJ (pyGet it "call_id") (pyOrJ (pyGet it "id") (.str "tool_call_0"))),
        ("type", pyGetD it "type" (.str "function")),
        ("function", .obj [("name", pyGet it "name"), ("arguments", args)])]

/-- Translation of adapter.py _collect_tool_calls: message tool calls win;
otherwise function_call items from the top-level output list are used. -/
def collectToolCalls (msg resp : Obj) : List JVal :=
  let toolCalls := extractToolCalls msg
  if ¬ toolCalls.isEmpty then toolCalls
  else
    match pyGetD resp "output" (.arr []) with
    | .arr items =>
      items.filterMap (fun item =>
        match item with
        | .obj it =>
          if isStrVal (pyGet it "type") "function_call" then some (outputItemToolCall it)
          else none
        | _ => none)
    | _ => toolCalls

/-- Translation of adapter.py _resolve_message_content. -/
def resolveMessageContent (msg resp : Obj) (toolCalls : List JVal) : JVal × JVal :=
  let mc := pyGet msg "content"
  let mc := if ¬ toolCalls.isEmpty ∧ isNoneOrEmptyStr mc then .null else mc
  let mc :=
    if toolCalls.isEmpty ∧ isNoneOrEmptyStr mc then
      match jget resp "output" with
      | some v => if isNullVal v then mc else .str (extractTextFromOutput v)
      | none => mc
    else mc
  (mc, pyGetD msg "role" (.str "assistant"))

/-- Translation of adapter.py _coerce_function_call. -/
def coerceFunctionCall (msg : Obj) : Option Obj :=
  match pyGet msg "function_call" with
  | .obj fc =>
    let args := pyGetD fc "arguments" (.str "")
    let args := if isContainer args then .str (jsonDumps args) else args
    some [("name", pyGet fc "name"), ("arguments", args)]
  | _ => none

/-- Translation of adapter.py _resolve_finish_reason. -/
def resolveFinishReason (primary : Obj) (toolCalls : List JVal) : JVal :=
  let fr := pyGet primary "finish_reason"
  if ¬ toolCalls.isEmpty ∧ ¬ truthy fr then .str "tool_calls" else fr

/-- Normalized usage statistics, as the three integer fields of the LiteLLM
Usage object that _build_usage populates. -/
structure UsageT where
  promptTokens : Int
  completionTokens : Int
  totalTokens : Int
  deriving Repr, DecidableEq

/-- Python usage or followed by .get access in _build_usage: a falsy value
becomes the empty dict, a truthy non-mapping raises. -/
def usageSourceObj (usage : JVal) : Except String Obj :=
  if truthy usage then asObj usage else .ok ([] : Obj)

/-- The total_tokens or-chain of _build_usage, keeping the Python
short-circuit order: the sum of prompt and completion tokens is evaluated
only when the source total is falsy or absent. -/
def resolveTotalTokens (ttRaw pt ct : JVal) : Except String JVal :=
  if truthy ttRaw then .ok ttRaw
  else pyAdd (pyOrJ pt (.num 0)) (pyOrJ ct (.num 0))

/-- Translation of adapter.py _build_usage. -/
def buildUsage (usage : JVal) : Except String UsageT := do
  let ud ← usageSourceObj usage
  let pt := pyGetD ud "prompt_tokens" (pyGetD ud "input_tokens" (.num 0))
  let ct := pyGetD ud "completion_tokens" (pyGetD ud "output_tokens" (.num 0))
  let tt ← resolveTotalTokens (pyGet ud "total_tokens") pt ct
  let p ← pyToInt (pyOrJ pt (.num 0))
  let c ← pyToInt (pyOrJ ct (.num 0))
  let t ← pyToInt (pyOrJ tt (.num 0))
  return ⟨p, c, t⟩

/-- Message part of the canonical response built by transform_response. -/
structure CMessage where
  content : JVal
  role : JVal
  toolCalls : Option (List JVal)
  functionCall : Option Obj
  deriving Repr

/-- Canonical response built by transform_response (single primary choice). -/
structure CResponse where
  id : JVal
  message : CMessage
  finishReason : JVal
  index : JVal
  created : Int
  model : JVal
  object : JVal
  systemFingerprint : JVal
  usage : UsageT
  deriving Repr

/-- Stage of transform_response up to the primary choice: unwrap one level
of response nesting, resolve choices (coercing from output when the choices
field is falsy and an output key exists), fail when still falsy, and take
the first choice and its message mapping. -/
def transformParts (payload : Obj) : Except String (Obj × Obj × Obj) := do
  let resp ← asObj (pyGetD payload "response" (.obj payload))
  let choicesVal := pyGet resp "choices"
  let choicesVal :=
    if ¬ truthy choicesVal ∧ hasKey resp "output" then
      .arr (coerceChoicesFromOutput (pyGet resp "output"))
    else choicesVal
  if ¬ truthy choicesVal then
    .error "Codex API response is missing choices output"
  else
    match choicesVal with
    | .arr (c :: _) => do
      let primary ← asObj c
      let msg ← asObj (pyOrJ (pyGet primary "message") (.obj []))
      .ok (resp, primary, msg)
    | _ => .error "TypeError: choices value is not subscriptable"

/-- Translation of adapter.py transform_response.  The wall clock used when
no created timestamp is present is the explicit now parameter. -/
def transformResponse (payload : Obj) (model : String) (now : Int) :
    Except String CResponse := do
  let parts ← transformParts payload
  let resp := parts.1
  let primary := parts.2.1
  let msg := parts.2.2
  let usagePayload := pyOrJ (pyGet resp "usage") (pyGet payload "usage")
  let toolCalls := collectToolCalls msg resp
  let contentRole := resolveMessageContent msg resp toolCalls
  let functionCall := coerceFunctionCall msg
  let sysFp := pyOrJ (pyGet resp "system_fingerprint") (pyGet payload "system_fingerprint")
  let finish := resolveFinishReason primary toolCalls
  let createdRaw := pyOrJ (pyGet resp "created") (pyGet resp "created_at")
  let created ← pyToInt (pyOrJ createdRaw (.num now))
  let usage ← buildUsage usagePayload
  return { id := pyOrJ (pyGet resp "id") (pyGetD payload "id" (.str "")),
           message := { content := contentRole.1, role := contentRole.2,
                        toolCalls := if toolCalls.isEmpty then none else some toolCalls,
                        functionCall := functionCall },
           finishReason := finish,
           index := pyGetD primary "index" (.num 0),
           created := created,
           model := pyGetD resp "model" (.str model),
           object := pyGetD resp "object" (.str "chat.completion"),
           systemFingerprint := sysFp,
           usage := usage }

/-!
Embedding of the buffered SSE extraction path of adapter.py
(_extract_response_from_events and the surrounding checks in
convert_sse_to_json and parse_response_body).  The input is the ordered
list of JSON-decoded data-line mappings that convert_sse_to_json
accumulates; non-mapping and undecodable lines are already filtered out by
construction of that list.
-/

/-- Whether an event has type response.done or response.completed. -/
def isCompletionTypeEvt (e : Obj) : Bool :=
  isStrVal (pyGet e "type") "response.done" ||
  isStrVal (pyGet e "type") "response.completed"

/-- The payload that a completion-typed event provides: its response field
or else (Python or, so an empty or falsy response falls through) its data
field, when a mapping. -/
def completionPayloadOf (e : Obj) : Option Obj :=
  match pyOrJ (pyGet e "response") (pyGet e "data") with
  | .obj m => some m
  | _ => none

/-- The mapping-valued response field of an event, when present. -/
def responseFieldOf (e : Obj) : Option Obj :=
  match jget e "response" with
  | some (.obj m) => some m
  | _ => none

/-- The reverse scan inside _extract_response_from_events.  Both checks are
made per event, most recent first: the completion branch, then the same
event against the response-field branch. -/
def scanEventsRev : List Obj → Option Obj
  | [] => none
  | e :: rest =>
    if isCompletionTypeEvt e then
      match completionPayloadOf e with
      | some m => some m
      | none =>
        match responseFieldOf e with
        | some m => some m
        | none => scanEventsRev rest
    else
      match responseFieldOf e with
      | some m => some m
      | none => scanEventsRev rest

/-- Translation of adapter.py _extract_response_from_events. -/
def extractResponseFromEvents (events : List Obj) : Obj :=
  match scanEventsRev events.reverse with
  | some m => m
  | none =>
    match events.getLast? with
    | some last => last
    | none => []

/-- The buffered SSE outcome as parse_response_body sees it: an extracted
payload that is falsy (the empty mapping, in particular from an empty event
list) makes parsing fail. -/
def parseBufferedSse (events : List Obj) : Except String Obj :=
  let parsed := extractResponseFromEvents events
  if parsed.isEmpty then
    .error "Codex API returned stream without final response event"
  else .ok parsed

/-!
Embedding of prompts.py build_tool_bridge_message and of provider.py
_prepare_input, completion and acompletion (the parts the claims touch).
-/

/-- prompts.py TOOL_BRIDGE_PROMPT. -/
def toolBridgePromptText : String :=
  "# Codex Tool Bridge\n\nYou are an open-source AI coding assistant with tool support, running behind a developer CLI. When tools are provided, prefer invoking them via standard OpenAI tool calls, using the provided tool schema exactly. Do not fabricate results—issue tool calls whenever they are needed to satisfy the request."

/-- Translation of prompts.py build_tool_bridge_message. -/
def buildToolBridgeMessage : JVal :=
  .obj [("type", .str "message"), ("role", .str "developer"),
        ("content", .arr [.obj [("type", .str "input_text"),
                                ("text", .str toolBridgePromptText)]])]

/-- Translation of provider.py _prepare_input: tools is the normalized tool
list (None when the caller passed none); a truthy list prepends the bridge
message. -/
def prepareInput (messages : List JVal) (tools : Option (List JVal)) : List JVal :=
  let toolsTruthy :=
    match tools with
    | some l => !l.isEmpty
    | none => false
  if toolsTruthy then buildToolBridgeMessage :: messages else messages

/-- Keyword parameters accepted by prompts.py derive_instructions (both are
keyword-only and have no default, so both are required). -/
def deriveInstructionsKwParams : List String := ["codex_mode", "normalized_model"]

/-- Keyword arguments used at the derive_instructions call sites in
provider.py completion (lines 685 to 689) and acompletion (lines 744 to
748). -/
def completionDeriveCallKw : List String := ["normalized_model", "instructions_text"]

/-- Model of CPython keyword binding for a call f(positional, **kw): an
unexpected keyword raises TypeError, as does a missing required
keyword-only argument. -/
def bindKwargs (accepted required given : List String) : Except String Unit :=
  match given.find? (fun k => !accepted.contains k) with
  | some k =>
    .error ("TypeError: derive_instructions got an unexpected keyword argument " ++ k)
  | none =>
    match required.find? (fun k => !given.contains k) with
    | some k =>
      .error ("TypeError: derive_instructions missing required keyword-only argument " ++ k)
    | none => .ok ()

/-- Model of provider.py completion and acompletion after the bearer token
is obtained: both normalize the model, fetch instructions, call
derive_instructions with the keyword set above, and only then build the
payload, dispatch the request (here an oracle giving the parsed response
body) and transform it.  A TypeError from keyword binding aborts before
dispatch, so the oracle result is never consulted. -/
def completionRun (model : List Char) (dispatchResult : Except String Obj)
    (now : Int) : Except String CResponse := do
  let normalizedModel := normalizeModel (stripPfx model)
  bindKwargs deriveInstructionsKwParams deriveInstructionsKwParams completionDeriveCallKw
  let data ← dispatchResult
  transformResponse data (String.mk normalizedModel) now

/-!
Embedding of src/litellm_codex_oauth_provider/remote_resources.py
(fetch_codex_instructions and its cache-path lookup).  Filesystem reads are
passed in as the metadata timestamp and cached text; the body of the
httpx.Client block is abstracted as an oracle that either returns a string
or raises one of the exception types the except clause catches.  Cache
writes are assumed to succeed.
-/

/-- constants.py DEFAULT_INSTRUCTIONS. -/
def defaultInstructionsText : List Char := "You are a helpful assistant.".data

/-- constants.py CODEX_INSTRUCTIONS_CACHE_TTL_SECONDS (15 minutes). -/
def instructionsCacheTtl : Int := 15 * 60

/-- remote_resources.py FAMILY_ALIASES lookup with the family itself as
default. -/
def familyAliasGet (family : List Char) : List Char :=
  if family = "codex-mini".data then "codex".data else family

/-- Keys of remote_resources.py CACHE_FILES. -/
def cacheFileKeys : List (List Char) :=
  ["codex-max".data, "codex".data, "gpt-5.1".data, "gpt-5.1-codex".data,
   "gpt-5.1-codex-max".data, "gpt-5.1-codex-mini".data]

/-- Translation of remote_resources.py _cache_paths reduced to its control
flow: resolve the alias and raise ValueError when the resulting key has no
cache file. -/
def cachePathsCheck (family : List Char) : Except String (List Char) :=
  let key := familyAliasGet family
  if cacheFileKeys.contains key then .ok key
  else .error "ValueError: model family not found"

/-- Translation of remote_resources.py _should_use_cache.  The metadata
timestamp is an integer here (Python uses a float epoch time). -/
def shouldUseCache (lastChecked : Option Int) (cached : Option (List Char))
    (now : Int) : Bool :=
  match lastChecked, cached with
  | some t, some _ => now - t < instructionsCacheTtl
  | _, _ => false

/-- Outcome of the httpx.Client block in fetch_codex_instructions: either
the block returns a string (a fresh download, or the cached text on a 304),
or it raises one of RequestError, HTTPStatusError, ValueError or
JSONDecodeError, all caught by the except clause. -/
inductive NetOutcome where
  | blockReturn (text : List Char)
  | raisedCaught
  deriving Repr, DecidableEq

/-- Python cached or DEFAULT_INSTRUCTIONS on an optional string. -/
def cachedOrDefault (cached : Option (List Char)) : List Char :=
  match cached with
  | some c => if c = [] then defaultInstructionsText else c
  | none => defaultInstructionsText

/-- Translation of remote_resources.py fetch_codex_instructions.  The
cache-path lookup runs before the try block, so an unknown family raises
ValueError to the caller; inside the try block any caught failure degrades
to the cached text or the default. -/
def fetchCodexInstructions (normalizedModel : List Char)
    (metaLastChecked : Option Int) (cached : Option (List Char)) (now : Int)
    (net : NetOutcome) : Except String (List Char) := do
  let family := getModelFamily normalizedModel
  let _cacheKey ← cachePathsCheck family
  if shouldUseCache metaLastChecked cached now then
    .ok (cachedOrDefault cached)
  else
    match net with
    | .blockReturn text => .ok text
    | .raisedCaught => .ok (cachedOrDefault cached)

/-!
Supporting definitions for stating and proving the claims.
-/

/-- Amended per-event rule for C1: a single reverse pass applies the
completion-type rule first and the mapping-valued response-field rule
second, on the same event. -/
def eventHit (e : Obj) : Option Obj :=
  if isCompletionTypeEvt e then
    match completionPayloadOf e with
    | some m => some m
    | none => responseFieldOf e
  else responseFieldOf e

/-- Normalized tag claimed for an out-of-set raw type after the amendment
of C5: the raw type itself, with unknown only for an absent or empty one. -/
def rawOrUnknown : Option String → String
  | some t => if t = "" then "unknown" else t
  | none => "unknown"

/-- Membership of a raw type in any of the four alias sets of sse_utils. -/
def inAnyAliasSet (t : String) : Bool :=
  textEventTypes.contains t || reasoningEventTypes.contains t ||
  functionArgumentsTypes.contains t || completionEventTypes.contains t

/-- The three delta tags that trigger delta-metadata attachment. -/
def deltaTags : List String :=
  ["text_delta", "reasoning_delta", "function_arguments_delta"]

/-- The normalized type of a produced event, for concrete checks. -/
def typeOfNormalized (et : Option String) (d : JVal) (i : Option String) :
    Except String (Option String) :=
  (normalizeEvent et d i).map (fun ev => ev.map SSEEventM.type)

/-- Whether a token field of a usage payload is an integer or absent. -/
def tokenFieldIntOk (ud : Obj) (k : String) : Bool :=
  match jget ud k with
  | some (.num _) => true
  | none => true
  | _ => false

/-- Modelled from the claim wording of C10: resolve a token count from the
first field naming, else the second, else zero. -/
def claimTok (ud : Obj) (k1 k2 : String) : Int :=
  match jget ud k1 with
  | some (.num n) => n
  | _ =>
    match jget ud k2 with
    | some (.num n) => n
    | _ => 0

/-- Payload of the completion-typed event in the C1 counterexample. -/
def c1DonePayload : Obj := [("a", .num 1)]

/-- A completion-typed SSE event carrying a mapping response. -/
def c1DoneEvent : Obj :=
  [("type", .str "response.done"), ("response", .obj c1DonePayload)]

/-- A later, non-completion event that also carries a mapping response. -/
def c1RecentEvent : Obj :=
  [("type", .str "x"), ("response", .obj [("b", .num 2)])]

/-- Concrete adapter payload for C2: a message with non-empty content and a
non-empty tool-call list. -/
def c2Payload : Obj :=
  [("choices", .arr [.obj [("message", .obj
      [("content", .str "hi"),
       ("tool_calls", .arr [.obj [("id", .str "c1"), ("type", .str "function"),
          ("function", .obj [("name", .str "f"), ("arguments", .str "null")])]])])]])]

/-- The canonical response transform_response builds from c2Payload. -/
def c2Expected : CResponse :=
  { id := .str "",
    message :=
      { content := .str "hi", role := .str "assistant",
        toolCalls := some [.obj
          [("id", .str "c1"), ("type", .str "function"),
           ("function", .obj [("name", .str "f"), ("arguments", .str "null")])]],
        functionCall := none },
    finishReason := .str "tool_calls", index := .num 0, created := 0,
    model := .str "m", object := .str "chat.completion",
    systemFingerprint := .null,
    usage := { promptTokens := 0, completionTokens := 0, totalTokens := 0 } }

/-- Concrete adapter payload for the C2 witness: tool calls with no content. -/
def c2WitnessPayload : Obj :=
  [("choices", .arr [.obj [("message", .obj
      [("tool_calls", .arr [.obj [("id", .str "c1"),
          ("function", .obj [("name", .str "f"), ("arguments", .str "null")])]])])]])]

/-- The primary choice transform_parts takes from c2WitnessPayload. -/
def c2WitnessPrimary : Obj :=
  [("message", .obj [("tool_calls", .arr [.obj [("id", .str "c1"),
      ("function", .obj [("name", .str "f"), ("arguments", .str "null")])]])])]

/-- The message mapping transform_parts takes from c2WitnessPayload. -/
def c2WitnessMsg : Obj :=
  [("tool_calls", .arr [.obj [("id", .str "c1"),
      ("function", .obj [("name", .str "f"), ("arguments", .str "null")])]])]

/-- The canonical response transform_response builds from c2WitnessPayload. -/
def c2WitnessResult : CResponse :=
  { id := .str "",
    message :=
      { content := .null, role := .str "assistant",
        toolCalls := some [.obj
          [("id", .str "c1"), ("type", .str "function"),
           ("function", .obj [("name", .str "f"), ("arguments", .str "null")])]],
        functionCall := none },
    finishReason := .str "tool_calls", index := .num 0, created := 0,
    model := .str "m", object := .str "chat.completion",
    systemFingerprint := .null,
    usage := { promptTokens := 0, completionTokens := 0, totalTokens := 0 } }

/-!
Theorems.  Helper lemmas come first; every claim is settled by exactly one
named theorem, with a counterexample theorem where the claim as stated
fails and a witness theorem where the main theorem carries hypotheses.
-/

theorem except_bind_ok {α β : Type} {e : Except String α} {f : α → Except String β}
    {r : β} (h : e.bind f = .ok r) : ∃ a, e = .ok a ∧ f a = .ok r := by
  cases e with
  | error s => simp [Except.bind] at h
  | ok a => exact ⟨a, rfl, by simpa [Except.bind] using h⟩

theorem except_ok_bind {α β : Type} (a : α) (f : α → Except String β) :
    (Except.ok a >>= f) = f a := rfl

theorem except_error_bind {α β : Type} (e : String) (f : α → Except String β) :
    ((Except.error e : Except String α) >>= f) = .error e := rfl

/-- C3: in every invocation of completion (and of acompletion, whose call
site is identical) that reaches message translation, the derive_instructions
call raises TypeError, because it passes the keyword argument
instructions_text, which the function does not accept, and omits the
required keyword-only codex_mode; hence for every model and every possible
dispatch outcome the pipeline returns that TypeError and never a canonical
response. -/
theorem c3_completion_type_error :
    ∀ (model : List Char) (dispatchResult : Except String Obj) (now : Int),
      completionRun model dispatchResult now =
        .error "TypeError: derive_instructions got an unexpected keyword argument instructions_text" := by
  intro model dispatchResult now
  rfl

/-- C9: for every message list, a non-empty normalized tool list makes the
prepared input start with exactly one synthesized developer-role bridge
message (the fixed bridge text) followed by the translated message items,
while an absent or empty tool list leaves the input exactly the translated
message items; the bridge item carries type message and role developer. -/
theorem c9_tool_bridge :
    ∀ (messages : List JVal) (tools : Option (List JVal)),
      (∀ t ts, tools = some (t :: ts) →
        prepareInput messages tools = buildToolBridgeMessage :: messages)
      ∧ ((tools = none ∨ tools = some []) → prepareInput messages tools = messages)
      ∧ (asObj buildToolBridgeMessage).map (fun o => (pyGet o "type", pyGet o "role"))
          = .ok (.str "message", .str "developer") := by
  intro messages tools
  refine ⟨?_, ?_, rfl⟩
  · intro t ts h
    subst h
    rfl
  · rintro (h | h) <;> subst h <;> rfl

/-- Witness for C9 at a concrete one-message, one-tool input. -/
theorem c9_tool_bridge_witness :
    prepareInput [JVal.null] (some [JVal.bool true]) =
      buildToolBridgeMessage :: [JVal.null] :=
  (c9_tool_bridge [JVal.null] (some [JVal.bool true])).1 (JVal.bool true) [] rfl

/-- Counterexample for C6: the claim says fetch_codex_instructions returns a
string and never raises for every model family including the other family,
but a model outside the known catalog (family other) makes the cache-path
lookup raise ValueError before any network interaction, whatever the
network outcome would have been. -/
theorem c6_fetch_instructions_counterexample :
    getModelFamily "my-model".data = "other".data
    ∧ fetchCodexInstructions "my-model".data none none 0 .raisedCaught
        = .error "ValueError: model family not found"
    ∧ fetchCodexInstructions "my-model".data none none 0 (.blockReturn "text".data)
        = .error "ValueError: model family not found" :=
  ⟨by decide, rfl, rfl⟩

/-- C6 amended: for every model whose family (after the codex-mini alias)
has a cache file (families codex, codex-max, codex-mini and gpt-5.1),
fetch_codex_instructions returns a string for every cache state and for
every network or parse outcome, and on a caught failure past the cache
window it degrades to the cached text or the hardcoded default; for any
other family it raises ValueError from the cache-path lookup instead. -/
theorem c6_fetch_instructions_amended :
    ∀ (model : List Char) (meta : Option Int) (cached : Option (List Char))
      (now : Int) (net : NetOutcome),
      (cacheFileKeys.contains (familyAliasGet (getModelFamily model)) = true →
        (fetchCodexInstructions model meta cached now net).isOk = true
        ∧ (net = .raisedCaught → shouldUseCache meta cached now = false →
            fetchCodexInstructions model meta cached now net = .ok (cachedOrDefault cached)))
      ∧ (cacheFileKeys.contains (familyAliasGet (getModelFamily model)) = false →
          fetchCodexInstructions model meta cached now net
            = .error "ValueError: model family not found") := by
  intro model meta cached now net
  constructor
  · intro hknown
    have hmem : familyAliasGet (getModelFamily model) ∈ cacheFileKeys := by
      simpa using hknown
    have hpaths : cachePathsCheck (getModelFamily model)
        = .ok (familyAliasGet (getModelFamily model)) := by
      simp [cachePathsCheck, hmem]
    constructor
    · by_cases hc : shouldUseCache meta cached now = true
      · simp [fetchCodexInstructions, hpaths, hc, except_ok_bind, Except.isOk, Except.toBool]
      · simp only [Bool.not_eq_true] at hc
        cases net <;>
          simp [fetchCodexInstructions, hpaths, hc, except_ok_bind, Except.isOk, Except.toBool]
    · intro hnet hcache
      subst hnet
      simp [fetchCodexInstructions, hpaths, hcache, except_ok_bind]
  · intro hunknown
    have hmem : familyAliasGet (getModelFamily model) ∉ cacheFileKeys := by
      simpa using hunknown
    have hpaths : cachePathsCheck (getModelFamily model)
        = .error "ValueError: model family not found" := by
      simp [cachePathsCheck, hmem]
    simp [fetchCodexInstructions, hpaths, except_error_bind]

/-- Witness for C6 at a known family, with an empty cache and a failing
network: the default instruction text is returned. -/
theorem c6_fetch_instructions_witness :
    fetchCodexInstructions "gpt-5.1-codex".data none none 0 .raisedCaught
      = .ok defaultInstructionsText :=
  ((c6_fetch_instructions_amended "gpt-5.1-codex".data none none 0 .raisedCaught).1
    (by decide)).2 rfl rfl

/-- Counterexample for C7: the claim says marker stripping is
case-insensitive, but _strip_provider_prefix uses an exact startswith test,
so a capitalized Codex/ marker is not removed while the lowercase codex/
marker is. -/
theorem c7_strip_marker_counterexample :
    stripPfx "Codex/gpt-5.1-codex".data = "Codex/gpt-5.1-codex".data
    ∧ stripPfx "codex/gpt-5.1-codex".data = "gpt-5.1-codex".data
    ∧ ("Codex/gpt-5.1-codex".data == "gpt-5.1-codex".data) = false := by
  refine ⟨by decide, by decide, by decide⟩

/-- C7 amended: stripping removes exactly one leading marker among
codex-oauth/, codex/ and codex-, checked in that order so the longest
marker wins, by an exact case-sensitive match, and whitespace-trims the
result; a string starting with none of the three lowercase markers is only
trimmed. -/
theorem c7_strip_marker_amended :
    ∀ (s : List Char),
      (startsL "codex-oauth/".data s = true → stripPfx s = trimL (s.drop 12))
      ∧ (startsL "codex-oauth/".data s = false → startsL "codex/".data s = true →
          stripPfx s = trimL (s.drop 6))
      ∧ (startsL "codex-oauth/".data s = false → startsL "codex/".data s = false →
          startsL "codex-".data s = true → stripPfx s = trimL (s.drop 6))
      ∧ (startsL "codex-oauth/".data s = false → startsL "codex/".data s = false →
          startsL "codex-".data s = false → stripPfx s = trimL s) := by
  intro s
  refine ⟨?_, ?_, ?_, ?_⟩
  · intro h1
    simp [stripPfx, providerMarkers, List.find?, h1]
  · intro h1 h2
    simp [stripPfx, providerMarkers, List.find?, h1, h2]
  · intro h1 h2 h3
    simp [stripPfx, providerMarkers, List.find?, h1, h2, h3]
  · intro h1 h2 h3
    simp [stripPfx, providerMarkers, List.find?, h1, h2, h3]

/-- Witness for C7: the longest marker is stripped from a concrete model
string even though the shorter codex- marker also matches. -/
theorem c7_strip_marker_witness :
    stripPfx "codex-oauth/gpt-5.1".data = trimL ("codex-oauth/gpt-5.1".data.drop 12) :=
  (c7_strip_marker_amended "codex-oauth/gpt-5.1".data).1 (by decide)

theorem attachCompletionMeta_type (ev : SSEEventM) (d : JVal) (t : String) :
    (attachCompletionMeta ev d t).type = ev.type := by
  unfold attachCompletionMeta
  split <;> rfl

/-- Counterexample for C5: the claim says every resolved raw type outside
the four alias sets yields the normalized tag unknown, but a non-empty
unrecognized raw type is carried through verbatim as the tag. -/
theorem c5_unknown_tag_counterexample :
    inAnyAliasSet "my.custom.event" = false
    ∧ resolveRawType (some "my.custom.event") (.obj [("k", .num 1)]) = some "my.custom.event"
    ∧ typeOfNormalized (some "my.custom.event") (.obj [("k", .num 1)]) none
        = .ok (some "my.custom.event")
    ∧ ("my.custom.event" == "unknown") = false :=
  ⟨by decide, rfl, rfl, by decide⟩

/-- C5 amended: for every event whose resolved raw type lies outside the
four alias sets, the produced tag is the raw type itself when it is a
non-empty string and unknown only when it is absent or empty; and whenever
the resulting tag is not one of the three delta tags, normalization returns
without raising. -/
theorem c5_unknown_tag_amended :
    ∀ (et : Option String) (data : JVal) (eid : Option String),
      (∀ t, resolveRawType et data = some t → inAnyAliasSet t = false) →
      deltaTags.contains (rawOrUnknown (resolveRawType et data)) = false →
      (normalizeEvent et data eid).isOk = true
      ∧ (∀ ev, normalizeEvent et data eid = .ok (some ev) → isDoneData data = false →
          ev.type = rawOrUnknown (resolveRawType et data)) := by
  intro et data eid hsets hdelta
  have hnt : resolveNormalizedType (resolveRawType et data)
      = rawOrUnknown (resolveRawType et data) := by
    cases hr : resolveRawType et data with
    | none => rfl
    | some t =>
      have hs := hsets t hr
      simp only [inAnyAliasSet, Bool.or_eq_false_iff] at hs
      have h1 : t ∉ textEventTypes := by simpa using hs.1.1.1
      have h2 : t ∉ reasoningEventTypes := by simpa using hs.1.1.2
      have h3 : t ∉ functionArgumentsTypes := by simpa using hs.1.2
      have h4 : t ∉ completionEventTypes := by simpa using hs.2
      simp [resolveNormalizedType, rawOrUnknown, h1, h2, h3, h4]
  have hcond : ¬(rawOrUnknown (resolveRawType et data) = "text_delta"
      ∨ rawOrUnknown (resolveRawType et data) = "reasoning_delta"
      ∨ rawOrUnknown (resolveRawType et data) = "function_arguments_delta") := by
    simpa [deltaTags] using hdelta
  have hattach : attachDeltaMeta
      { type := resolveNormalizedType (resolveRawType et data),
        rawType := resolveRawType et data, data := data, id := eid }
      data (resolveNormalizedType (resolveRawType et data))
      = .ok { type := resolveNormalizedType (resolveRawType et data),
              rawType := resolveRawType et data, data := data, id := eid } := by
    rw [attachDeltaMeta]
    rw [hnt]
    simp [hcond]
  constructor
  · by_cases hb : isBlankData data = true
    · simp [normalizeEvent, hb, Except.isOk, Except.toBool]
    · simp only [Bool.not_eq_true] at hb
      by_cases hd : isDoneData data = true
      · simp [normalizeEvent, hb, hd, Except.isOk, Except.toBool]
      · simp only [Bool.not_eq_true] at hd
        simp [normalizeEvent, hb, hd, hattach, except_ok_bind, Except.isOk,
          Except.toBool]
  · intro ev hev hdone
    by_cases hb : isBlankData data = true
    · simp [normalizeEvent, hb] at hev
    · simp only [Bool.not_eq_true] at hb
      simp only [normalizeEvent, hb, hdone, Bool.false_eq_true, if_false,
        hattach, except_ok_bind] at hev
      have hev2 := hev
      simp only [Except.ok.injEq, Option.some.injEq] at hev2
      rw [← hev2]
      rw [attachCompletionMeta_type]
      exact hnt

/-- Witness for C5 at a concrete unrecognized event type: normalization
returns without raising. -/
theorem c5_unknown_tag_witness :
    (normalizeEvent (some "custom.tag") (.obj []) none).isOk = true :=
  (c5_unknown_tag_amended (some "custom.tag") (.obj []) none
    (by intro t ht
        simp [resolveRawType] at ht
        subst ht
        decide)
    (by decide)).1

theorem scanEventsRev_cons (e : Obj) (rest : List Obj) :
    scanEventsRev (e :: rest)
      = match eventHit e with
        | some m => some m
        | none => scanEventsRev rest := by
  by_cases h : isCompletionTypeEvt e = true <;>
    cases hc : completionPayloadOf e <;>
    cases hrf : responseFieldOf e <;>
    simp [scanEventsRev, eventHit, h, hc, hrf]

theorem scanEventsRev_none (l : List Obj) (h : ∀ x ∈ l, eventHit x = none) :
    scanEventsRev l = none := by
  induction l with
  | nil => rfl
  | cons e rest ih =>
    rw [scanEventsRev_cons, h e (List.mem_cons_self _ _)]
    exact ih (fun x hx => h x (List.mem_cons_of_mem _ hx))

theorem scanEventsRev_skip (l1 : List Obj) (e : Obj) (l2 : List Obj)
    (h1 : ∀ x ∈ l1, eventHit x = none) :
    scanEventsRev (l1 ++ e :: l2)
      = match eventHit e with
        | some m => some m
        | none => scanEventsRev l2 := by
  induction l1 with
  | nil => exact scanEventsRev_cons e l2
  | cons a rest ih =>
    rw [List.cons_append, scanEventsRev_cons, h1 a (List.mem_cons_self _ _)]
    exact ih (fun x hx => h1 x (List.mem_cons_of_mem _ hx))

/-- Counterexample for C1: a completion-typed event with a mapping response
exists in the accumulated list, yet the extraction returns the response
field of the more recent, non-completion event, because the single reverse
pass applies both rules per event instead of scanning the whole list for a
completion-typed event first. -/
theorem c1_sse_extraction_counterexample :
    extractResponseFromEvents [c1DoneEvent, c1RecentEvent] = [("b", .num 2)]
    ∧ isCompletionTypeEvt c1DoneEvent = true
    ∧ completionPayloadOf c1DoneEvent = some c1DonePayload
    ∧ ((([("b", JVal.num 2)] : Obj).map Prod.fst)
        == c1DonePayload.map Prod.fst) = false :=
  ⟨rfl, by decide, rfl, by decide⟩

/-- C1 amended: extraction is a single reverse scan in which each event is
tried first against the completion-type rule and then against its own
mapping-valued response field; the most recent event satisfying either rule
supplies the payload, with the last event verbatim as fallback, and an
empty accumulated list yields the empty mapping, which makes buffered
parsing fail. -/
theorem c1_sse_extraction_amended :
    ∀ (events pre post : List Obj) (e : Obj),
      (events = pre ++ e :: post → eventHit e ≠ none →
        (∀ x ∈ post, eventHit x = none) →
        extractResponseFromEvents events = (eventHit e).getD [])
      ∧ ((∀ x ∈ events, eventHit x = none) →
        extractResponseFromEvents events = (events.getLast?).getD [])
      ∧ parseBufferedSse []
          = .error "Codex API returned stream without final response event" := by
  intro events pre post e
  refine ⟨?_, ?_, rfl⟩
  · intro hev hhit hpost
    subst hev
    unfold extractResponseFromEvents
    have hrev : (pre ++ e :: post).reverse = post.reverse ++ e :: pre.reverse := by
      simp
    rw [hrev, scanEventsRev_skip post.reverse e pre.reverse
      (fun x hx => hpost x (List.mem_reverse.mp hx))]
    cases he : eventHit e with
    | none => exact absurd he hhit
    | some m => rfl
  · intro hall
    unfold extractResponseFromEvents
    rw [scanEventsRev_none events.reverse
      (fun x hx => hall x (List.mem_reverse.mp hx))]
    cases events.getLast? <;> rfl

/-- Witness for C1: a single completion-typed event supplies its response
payload. -/
theorem c1_sse_extraction_witness :
    extractResponseFromEvents [c1DoneEvent] = c1DonePayload :=
  (c1_sse_extraction_amended [c1DoneEvent] [] [] c1DoneEvent).1 rfl
    (by intro h
        exact Option.noConfusion ((rfl :
          some c1DonePayload = eventHit c1DoneEvent).trans h))
    (by intro x hx; cases hx)

theorem usage_head_ok (ud : Obj) : usageSourceObj (.obj ud) = .ok ud := by
  cases ud <;> simp [usageSourceObj, truthy, asObj]

theorem pyOrJ_num_zero (n : Int) : pyOrJ (.num n) (.num 0) = .num n := by
  by_cases h : n = 0 <;> simp [pyOrJ, truthy, h]

theorem tok_resolved (ud : Obj) (k1 k2 : String)
    (h1 : tokenFieldIntOk ud k1 = true) (h2 : tokenFieldIntOk ud k2 = true) :
    pyGetD ud k1 (pyGetD ud k2 (.num 0)) = .num (claimTok ud k1 k2) := by
  unfold tokenFieldIntOk at h1 h2
  unfold pyGetD claimTok
  cases hj1 : jget ud k1 with
  | some v =>
    rw [hj1] at h1
    cases v <;> simp_all
  | none =>
    rw [hj1] at h1
    cases hj2 : jget ud k2 with
    | some w =>
      rw [hj2] at h2
      cases w <;> simp_all
    | none => simp_all

/-- C10: for every usage payload whose token fields are integers (in either
the prompt/completion or the input/output naming) and whose total is
absent, the built usage resolves each count through the first naming, then
the second, then zero, and sets the total to the exact integer sum; in
particular input 5 and output 7 yield prompt 5, completion 7, total 12. -/
theorem c10_usage_sum :
    (∀ ud : Obj,
      tokenFieldIntOk ud "prompt_tokens" = true →
      tokenFieldIntOk ud "input_tokens" = true →
      tokenFieldIntOk ud "completion_tokens" = true →
      tokenFieldIntOk ud "output_tokens" = true →
      jget ud "total_tokens" = none →
      buildUsage (.obj ud)
        = .ok ⟨claimTok ud "prompt_tokens" "input_tokens",
               claimTok ud "completion_tokens" "output_tokens",
               claimTok ud "prompt_tokens" "input_tokens"
                 + claimTok ud "completion_tokens" "output_tokens"⟩)
    ∧ buildUsage (.obj [("input_tokens", .num 5), ("output_tokens", .num 7)])
        = .ok ⟨5, 7, 12⟩ := by
  constructor
  · intro ud h1 h2 h3 h4 h5
    have hpt := tok_resolved ud _ _ h1 h2
    have hct := tok_resolved ud _ _ h3 h4
    have htt : pyGet ud "total_tokens" = .null := by simp [pyGet, h5]
    have hsum : ∀ a b : Int, resolveTotalTokens .null (.num a) (.num b)
        = .ok (.num (a + b)) := by
      intro a b
      simp [resolveTotalTokens, truthy, pyOrJ_num_zero, pyAdd]
    simp only [buildUsage, usage_head_ok, except_ok_bind, hpt, hct, htt, hsum,
      pyOrJ_num_zero, pyToInt]
    rfl
  · rfl

/-- Witness for C10 at a concrete one-field usage payload. -/
theorem c10_usage_sum_witness :
    buildUsage (.obj [("prompt_tokens", .num 3)]) = .ok ⟨3, 0, 3⟩ :=
  c10_usage_sum.1 [("prompt_tokens", JVal.num 3)] rfl rfl rfl rfl rfl

theorem clampEffort_eq_table :
    ∀ f e, clampEffort f e = claimClampTable f e := by
  intro f e
  unfold clampEffort claimClampTable
  by_cases h1 : f = "codex-mini".data
  · simp [h1]
  · by_cases h2 : f = "codex".data
    · simp [h1, h2]
    · by_cases h3 : f = "codex-max".data
      · simp [h1, h2, h3]
      · by_cases h4 : e = "xhigh".data <;> simp [h1, h2, h3, h4]

/-- Counterexample for C4: the claim resolves the effort from the explicit
caller value whenever one is given, so a caller-given empty string, being
outside the six-token set, should resolve to medium; the code instead
treats the empty string as absent and falls through to the model suffix,
yielding high for an original model carrying a high suffix. -/
theorem c4_effort_resolution_counterexample :
    (applyReasoningConfig "foo-high".data "bar".data (.strV []) none).effort
      = "high".data
    ∧ claimResolvedEffort (some []) "foo-high".data "bar".data = "medium".data
    ∧ (("high".data : List Char) == "medium".data) = false :=
  ⟨by decide, by decide, by decide⟩

/-- C4 amended: the resolved effort is the explicit caller value when it is
given and non-empty (a string, or a mapping with a string effort value),
else the suffix inferred from the original model, else medium; a resulting
token outside the six-token set is replaced by medium without raising, and
the result is clamped by the family table (codex-mini forces none, minimal
and low to medium and xhigh to high; codex forces minimal to low and xhigh
to high; codex-max clamps nothing; every other family forces only xhigh to
high).  In particular an explicit xhigh on a codex-mini model resolves to
high. -/
theorem c4_effort_resolution_amended :
    ∀ (originalModel normalizedModel : List Char) (arg : EffortArg)
      (verbosity : Option (List Char)),
      (applyReasoningConfig originalModel normalizedModel arg verbosity).effort
        = amendedResolvedEffort arg originalModel normalizedModel
      ∧ (applyReasoningConfig "gpt-5.1-codex-mini".data "gpt-5.1-codex-mini".data
          (.strV "xhigh".data) none).effort = "high".data := by
  intro om nm arg verb
  constructor
  · have hbase : lowerL (orStr (coerceEffort arg)
        (orStr (extractEffortFromModel om) "medium".data))
        = (match coerceEffort arg with
           | some s =>
             if s = [] then lowerL (orStr (extractEffortFromModel om) "medium".data)
             else lowerL s
           | none => lowerL (orStr (extractEffortFromModel om) "medium".data)) := by
      cases coerceEffort arg with
      | none => rfl
      | some s => by_cases hs : s = [] <;> simp [orStr, hs]
    simp only [applyReasoningConfig, amendedResolvedEffort, hbase,
      clampEffort_eq_table]
  · decide

theorem isStrVal_empty_of_not_empty (v : JVal) (h : isNoneOrEmptyStr v = false) :
    isStrVal v "" = false := by
  cases v <;> simp_all [isNoneOrEmptyStr, isStrVal]

/-- Counterexample for C2: the claim says every canonical response with a
non-empty tool-call list has content None, but a source message carrying
both non-empty content and tool calls keeps its content string. -/
theorem c2_tool_call_content_counterexample :
    transformResponse c2Payload "m" 0 = .ok c2Expected
    ∧ c2Expected.message.toolCalls.isSome = true
    ∧ c2Expected.message.content = JVal.str "hi"
    ∧ isNullVal c2Expected.message.content = false :=
  ⟨rfl, rfl, rfl, rfl⟩

/-- C2 amended: for every canonical response the adapter produces with a
non-empty tool-call list, the content is forced to None whenever the source
message content was None or the empty string, the content is never the
empty string, and finish_reason is tool_calls whenever the source choice
supplied no truthy finish reason. -/
theorem c2_tool_call_content_amended :
    ∀ (payload : Obj) (model : String) (now : Int) (r : CResponse)
      (resp primary msg : Obj),
      transformParts payload = .ok (resp, primary, msg) →
      transformResponse payload model now = .ok r →
      r.message.toolCalls ≠ none →
      (isNoneOrEmptyStr (pyGet msg "content") = true → r.message.content = .null)
      ∧ (truthy (pyGet primary "finish_reason") = false →
          r.finishReason = .str "tool_calls")
      ∧ isStrVal r.message.content "" = false := by
  intro payload model now r resp primary msg hparts htr hnz
  unfold transformResponse at htr
  rw [hparts] at htr
  rw [except_ok_bind] at htr
  obtain ⟨created, hcr, htr⟩ := except_bind_ok htr
  obtain ⟨usage, hus, htr⟩ := except_bind_ok htr
  have hrec := Except.ok.inj htr
  subst hrec
  dsimp only at hnz ⊢
  have hemp : (collectToolCalls msg resp).isEmpty = false := by
    by_cases he : (collectToolCalls msg resp).isEmpty = true
    · exfalso
      apply hnz
      simp [he]
    · simpa using he
  refine ⟨?_, ?_, ?_⟩
  · intro hcond
    simp only [resolveMessageContent, hemp, hcond]
    simp
  · intro hfr
    simp only [resolveFinishReason, hemp, hfr]
    simp
  · by_cases hcond : isNoneOrEmptyStr (pyGet msg "content") = true
    · simp only [resolveMessageContent, hemp, hcond]
      simp [isStrVal]
    · simp only [Bool.not_eq_true] at hcond
      simp only [resolveMessageContent, hemp, hcond]
      simp [isStrVal_empty_of_not_empty _ hcond]

/-- Witness for C2 at a concrete tool-call-only payload: the source content
is absent, so the canonical content is None. -/
theorem c2_tool_call_content_witness :
    c2WitnessResult.message.content = JVal.null :=
  (c2_tool_call_content_amended c2WitnessPayload "m" 0 c2WitnessResult
    c2WitnessPayload c2WitnessPrimary c2WitnessMsg rfl rfl
    (fun h => Option.noConfusion h)).1 rfl

theorem dW_head_false (p : Char → Bool) :
    ∀ (l : List Char) (c : Char) (t : List Char),
      l.dropWhile p = c :: t → p c = false := by
  intro l
  induction l with
  | nil => intro c t h; simp [List.dropWhile] at h
  | cons a l ih =>
    intro c t h
    by_cases hpa : p a = true
    · exact ih c t (by simpa [List.dropWhile_cons, hpa] using h)
    · simp only [Bool.not_eq_true] at hpa
      simp only [List.dropWhile_cons, hpa, Bool.false_eq_true, if_false,
        List.cons.injEq] at h
      rw [← h.1]
      exact hpa

theorem dW_idem (p : Char → Bool) (l : List Char) :
    (l.dropWhile p).dropWhile p = l.dropWhile p := by
  cases h : l.dropWhile p with
  | nil => rfl
  | cons c t =>
    have hc := dW_head_false p l c t h
    simp [List.dropWhile_cons, hc]

theorem trimL_idem (s : List Char) : trimL (trimL s) = trimL s := by
  unfold trimL
  set a := s.dropWhile isPySpace with ha
  set b := a.reverse.dropWhile isPySpace with hb
  have hdWb : b.reverse.dropWhile isPySpace = b.reverse := by
    cases hbr : b.reverse with
    | nil => rfl
    | cons c t =>
      have hsplit : a.reverse.takeWhile isPySpace ++ b = a.reverse := by
        rw [hb]
        exact List.takeWhile_append_dropWhile isPySpace a.reverse
      have ha2 : a = b.reverse ++ (a.reverse.takeWhile isPySpace).reverse := by
        have h2 := congrArg List.reverse hsplit
        simpa [List.reverse_append] using h2.symm
      rw [hbr] at ha2
      have hc : isPySpace c = false := by
        apply dW_head_false isPySpace s c (t ++ (a.reverse.takeWhile isPySpace).reverse)
        rw [← ha]
        exact ha2
      simp [List.dropWhile_cons, hc]
  rw [hdWb, List.reverse_reverse]
  have : b.dropWhile isPySpace = b := by
    rw [hb, dW_idem]
  rw [this]

theorem stripPfx_trimmed (m : List Char) : trimL (stripPfx m) = stripPfx m := by
  unfold stripPfx
  cases providerMarkers.find? (fun p => startsL p m) with
  | none => exact trimL_idem m
  | some p => exact trimL_idem _

theorem startsL_eq_append (p : List Char) :
    ∀ (s : List Char), startsL p s = true → s = p ++ s.drop p.length := by
  induction p with
  | nil => intro s _; simp
  | cons a ps ih =>
    intro s h
    cases s with
    | nil => simp [startsL] at h
    | cons c cs =>
      simp only [startsL, Bool.and_eq_true, decide_eq_true_eq] at h
      have h2 := ih cs h.2
      simp only [List.cons_append, List.length_cons, List.drop_succ_cons]
      rw [h.1, ← h2]

theorem startsL_append (a b : List Char) : startsL a (a ++ b) = true := by
  induction a with
  | nil => rfl
  | cons c t ih => simpa [startsL] using ih

theorem hasSub_of_startsL (n s : List Char) (h : startsL n s = true) :
    hasSub n s = true := by
  cases s with
  | nil =>
    cases n with
    | nil => rfl
    | cons a t => simp [startsL] at h
  | cons c t => simp [hasSub, h]

theorem hasSub_codex_of_marker (c : List Char)
    (h : ∃ p ∈ providerMarkers, startsL p c = true) :
    hasSub "codex".data (lowerL c) = true := by
  obtain ⟨p, hp, hs⟩ := h
  have hc := startsL_eq_append p c hs
  simp only [providerMarkers, List.mem_cons, List.not_mem_nil, or_false] at hp
  rcases hp with rfl | rfl | rfl
  · rw [hc]
    apply hasSub_of_startsL
    simp only [lowerL, List.map_append]
    exact startsL_append "codex".data
      ("-oauth/".data ++ List.map Char.toLower
        (c.drop ("codex-oauth/".data : List Char).length))
  · rw [hc]
    apply hasSub_of_startsL
    simp only [lowerL, List.map_append]
    exact startsL_append "codex".data
      ("/".data ++ List.map Char.toLower
        (c.drop ("codex/".data : List Char).length))
  · rw [hc]
    apply hasSub_of_startsL
    simp only [lowerL, List.map_append]
    exact startsL_append "codex".data
      ("-".data ++ List.map Char.toLower
        (c.drop ("codex-".data : List Char).length))

theorem findVal_val_mem (m : List (List Char × List Char)) (k v : List Char)
    (h : findVal m k = some v) : ∃ p ∈ m, p.2 = v := by
  induction m with
  | nil => simp [findVal] at h
  | cons q rest ih =>
    obtain ⟨k2, v2⟩ := q
    by_cases hk : k2 = k
    · simp only [findVal, hk, if_true, Option.some.injEq] at h
      subst hk
      exact ⟨(k2, v2), List.mem_cons_self _ _, h⟩
    · simp only [findVal, hk, if_false] at h
      obtain ⟨p, hp, hpv⟩ := ih h
      exact ⟨p, List.mem_cons_of_mem _ hp, hpv⟩

theorem buildModelMap_vals :
    ∀ p ∈ buildModelMap,
      p.2 = "gpt-5.1-codex".data ∨ p.2 = "gpt-5.1-codex-max".data ∨
      p.2 = "gpt-5.1-codex-mini".data ∨ p.2 = "gpt-5.1".data := by decide

/-- C8: model normalization is idempotent: applying normalize_model to an
already-normalized model string returns it unchanged, for canonical table
hits, substring-heuristic hits and pass-through unknown models alike. -/
theorem c8_normalize_idem :
    ∀ s : List Char, normalizeModel (normalizeModel s) = normalizeModel s := by
  intro s
  have hfix : ∀ b : List Char,
      b = "gpt-5.1-codex".data ∨ b = "gpt-5.1-codex-max".data ∨
      b = "gpt-5.1-codex-mini".data ∨ b = "gpt-5.1".data →
      normalizeModel b = b := by
    rintro b (rfl | rfl | rfl | rfl) <;> decide
  set c := stripPfx s with hcdef
  have htrim : trimL c = c := by
    rw [hcdef]
    exact stripPfx_trimmed s
  cases hf : findVal buildModelMap (lowerL c) with
  | some v =>
    have h1 : normalizeModel s = v := by
      simp only [normalizeModel]
      rw [← hcdef, hf]
    rw [h1]
    obtain ⟨p, hp, hpv⟩ := findVal_val_mem _ _ _ hf
    apply hfix
    rw [← hpv]
    exact buildModelMap_vals p hp
  | none =>
    by_cases h1 : hasSub "codex-max".data (lowerL c) = true
    · have he : normalizeModel s = "gpt-5.1-codex-max".data := by
        simp only [normalizeModel]
        rw [← hcdef, hf]
        simp [h1]
      rw [he]
      decide
    · by_cases h2 : hasSub "codex-mini".data (lowerL c) = true
      · have he : normalizeModel s = "gpt-5.1-codex-mini".data := by
          simp only [normalizeModel]
          rw [← hcdef, hf]
          simp [h1, h2]
        rw [he]
        decide
      · by_cases h3 : hasSub "codex".data (lowerL c) = true
        · have he : normalizeModel s = "gpt-5.1-codex".data := by
            simp only [normalizeModel]
            rw [← hcdef, hf]
            simp [h1, h2, h3]
          rw [he]
          decide
        · by_cases h4 : hasSub "gpt-5.1".data (lowerL c) = true
          · have he : normalizeModel s = "gpt-5.1".data := by
              simp only [normalizeModel]
              rw [← hcdef, hf]
              simp [h1, h2, h3, h4]
            rw [he]
            decide
          · have he : normalizeModel s = c := by
              simp only [normalizeModel]
              rw [← hcdef, hf]
              simp [h1, h2, h3, h4]
            rw [he]
            have hstrip : stripPfx c = c := by
              unfold stripPfx
              cases hfind : providerMarkers.find? (fun p => startsL p c) with
              | none => exact htrim
              | some p =>
                exfalso
                apply h3
                have hpmem : p ∈ providerMarkers := List.mem_of_find?_eq_some hfind
                have hpred : startsL p c = true := by
                  have h5 := List.find?_some hfind
                  simpa using h5
                exact hasSub_codex_of_marker c ⟨p, hpmem, hpred⟩
            simp only [normalizeModel]
            rw [hstrip, hf]
            simp [h1, h2, h3, h4]
